import Mathlib

/-!
A verification development for the recurring-transaction engine of the
typeface-finance-app repository.

The development embeds, as executable Lean definitions:

* the JavaScript `Date` arithmetic used by the engine (rata-die ordinals with
  the silent month/day normalization the `Date` setters perform),
* the `RecurringTransaction` Mongoose model: its schema fields and validators,
  the `calculateNextOccurrence` method, the `pre-save` hook and the
  `getTransactionsToProcess` static (from
  `backend/src/models/RecurringTransaction.js`),
* the batch processor and the lifecycle operations of the recurring-transaction
  controller (`src/unnamed/part_002`): the batch cycle with its per-template
  ledger writes outside the batch session and its single end-of-cycle bulkWrite
  of the template advances, the toggle-active operation, and the
  `findOneAndUpdate`-based update operation.

Theorems about these definitions settle the claims of the specification.
-/

namespace JsDate

/-- Gregorian leap-year test, as performed by the JavaScript `Date` object. -/
def isLeap (y : Nat) : Bool := (y % 4 == 0 && y % 100 != 0) || (y % 400 == 0)

/-- Number of days in month `m` (0-based, January = 0) of year `y`.
Months beyond 11 take the December value; all uses are for `m < 12`. -/
def daysInMonth (y m : Nat) : Nat :=
  match m with
  | 1 => if isLeap y then 29 else 28
  | 3 => 30
  | 5 => 30
  | 8 => 30
  | 10 => 30
  | _ => 31

/-- Days of a non-leap year strictly before the first day of month `m` (0-based). -/
def daysBeforeBase (m : Nat) : Nat :=
  match m with
  | 0 => 0
  | 1 => 31
  | 2 => 59
  | 3 => 90
  | 4 => 120
  | 5 => 151
  | 6 => 181
  | 7 => 212
  | 8 => 243
  | 9 => 273
  | 10 => 304
  | _ => 334

/-- Days of year `y` strictly before the first day of month `m` (0-based). -/
def daysBefore (y m : Nat) : Nat :=
  daysBeforeBase m + (if 2 ≤ m ∧ isLeap y = true then 1 else 0)

/-- Number of leap years among the years `1, …, y - 1` (proleptic Gregorian). -/
def leapsBefore (y : Nat) : Nat := (y - 1) / 4 - (y - 1) / 100 + (y - 1) / 400

/-- Rata-die ordinal (0001-01-01 is day 1) of day `d` (1-based) of month `m`
(0-based) of year `y ≥ 1`.  A month at or beyond 12 rolls over into a later
year and a day beyond the length of the month rolls over into later months,
because the formula is affine in `d`; this reproduces the silent normalization
a JavaScript `Date` performs in `setMonth`, `setDate` and the
`new Date(y, m, d)` constructor. -/
def mkOrd (y m d : Nat) : Nat :=
  365 * (y + m / 12 - 1) + leapsBefore (y + m / 12) + daysBefore (y + m / 12) (m % 12) + d

/-- Calendar date: year (≥ 1), month (0-based, as in JavaScript) and day (1-based). -/
structure Civil where
  year : Nat
  month : Nat
  day : Nat
deriving DecidableEq, Repr

/-- Calendar date of the `r`-th (0-based) day of year `y`. -/
def civilOfDoyL (y L r : Nat) : Civil :=
  if r < 31 then ⟨y, 0, r + 1⟩
  else if r < 59 + L then ⟨y, 1, r - 30⟩
  else if r < 90 + L then ⟨y, 2, r - (58 + L)⟩
  else if r < 120 + L then ⟨y, 3, r - (89 + L)⟩
  else if r < 151 + L then ⟨y, 4, r - (119 + L)⟩
  else if r < 181 + L then ⟨y, 5, r - (150 + L)⟩
  else if r < 212 + L then ⟨y, 6, r - (180 + L)⟩
  else if r < 243 + L then ⟨y, 7, r - (211 + L)⟩
  else if r < 273 + L then ⟨y, 8, r - (242 + L)⟩
  else if r < 304 + L then ⟨y, 9, r - (272 + L)⟩
  else if r < 334 + L then ⟨y, 10, r - (303 + L)⟩
  else ⟨y, 11, r - (333 + L)⟩

def civilOfDoy (y r : Nat) : Civil :=
  civilOfDoyL y (if isLeap y then 1 else 0) r

/-- Decomposition of an ordinal along 400-year, 100-year, 4-year and 1-year
blocks; `a, b, c, e` are the block counts and `r` the remaining day of year. -/
def fromOrdAux (a b c e r : Nat) : Civil :=
  if e = 4 ∨ b = 4 then ⟨400 * a + 100 * b + 4 * c + e, 11, 31⟩
  else civilOfDoy (400 * a + 100 * b + 4 * c + e + 1) r

/-- Calendar date of a rata-die ordinal `z ≥ 1` (inverse of `mkOrd` on valid dates). -/
def fromOrd (z : Nat) : Civil :=
  fromOrdAux ((z - 1) / 146097) ((z - 1) % 146097 / 36524)
    ((z - 1) % 146097 % 36524 / 1461) ((z - 1) % 146097 % 36524 % 1461 / 365)
    ((z - 1) % 146097 % 36524 % 1461 % 365)

/-- A calendar date is valid when the year is positive, the month is a real
month and the day lies within the month. -/
def Civil.Valid (c : Civil) : Prop :=
  1 ≤ c.year ∧ c.month < 12 ∧ 1 ≤ c.day ∧ c.day ≤ daysInMonth c.year c.month

theorem daysInMonth_ge (y m : Nat) : 28 ≤ daysInMonth y m := by
  unfold daysInMonth
  split <;> first | omega | (split_ifs <;> omega)

theorem daysInMonth_le (y m : Nat) : daysInMonth y m ≤ 31 := by
  unfold daysInMonth
  split <;> first | omega | (split_ifs <;> omega)

theorem isLeap_iff (y : Nat) :
    isLeap y = true ↔ ((y % 4 = 0 ∧ y % 100 ≠ 0) ∨ y % 400 = 0) := by
  simp [isLeap, Bool.or_eq_true, Bool.and_eq_true, beq_iff_eq, bne_iff_ne]

theorem leapsBefore_succ (y : Nat) (hy : 1 ≤ y) :
    leapsBefore (y + 1) = leapsBefore y + (if isLeap y then 1 else 0) := by
  unfold leapsBefore
  cases hb : isLeap y
  · have h2 : ¬((y % 4 = 0 ∧ y % 100 ≠ 0) ∨ y % 400 = 0) := by
      rw [← isLeap_iff, hb]
      simp
    simp only [Bool.false_eq_true, if_false]
    omega
  · have h2 := (isLeap_iff y).mp hb
    simp only [if_true]
    omega

theorem daysBefore_succ (y m : Nat) (hm : m ≤ 10) :
    daysBefore y (m + 1) = daysBefore y m + daysInMonth y m := by
  interval_cases m <;> cases hb : isLeap y <;>
    simp [daysBefore, daysBeforeBase, daysInMonth, hb]

theorem daysBefore_eleven (y : Nat) :
    daysBefore y 11 + daysInMonth y 11 = 365 + (if isLeap y then 1 else 0) := by
  cases hb : isLeap y <;> simp [daysBefore, daysBeforeBase, daysInMonth, hb]


set_option maxHeartbeats 1000000 in
theorem civilOfDoyL_correct (y L r : Nat) (hy : L = if isLeap y then 1 else 0)
    (h : r < 365 + L) :
    (civilOfDoyL y L r).year = y ∧ (civilOfDoyL y L r).month < 12 ∧
    1 ≤ (civilOfDoyL y L r).day ∧
    (civilOfDoyL y L r).day ≤ daysInMonth y (civilOfDoyL y L r).month ∧
    daysBefore y (civilOfDoyL y L r).month + (civilOfDoyL y L r).day = r + 1 := by
  have e2 : daysBeforeBase 2 = 59 := rfl
  have e3 : daysBeforeBase 3 = 90 := rfl
  have e4 : daysBeforeBase 4 = 120 := rfl
  have e5 : daysBeforeBase 5 = 151 := rfl
  have e6 : daysBeforeBase 6 = 181 := rfl
  have e7 : daysBeforeBase 7 = 212 := rfl
  have e8 : daysBeforeBase 8 = 243 := rfl
  have e9 : daysBeforeBase 9 = 273 := rfl
  have e10 : daysBeforeBase 10 = 304 := rfl
  have e11 : daysBeforeBase 11 = 334 := rfl
  have g0 : daysInMonth y 0 = 31 := rfl
  have g2 : daysInMonth y 2 = 31 := rfl
  have g3 : daysInMonth y 3 = 30 := rfl
  have g4 : daysInMonth y 4 = 31 := rfl
  have g5 : daysInMonth y 5 = 30 := rfl
  have g6 : daysInMonth y 6 = 31 := rfl
  have g7 : daysInMonth y 7 = 31 := rfl
  have g8 : daysInMonth y 8 = 30 := rfl
  have g9 : daysInMonth y 9 = 31 := rfl
  have g10 : daysInMonth y 10 = 30 := rfl
  have g11 : daysInMonth y 11 = 31 := rfl
  have g1 : daysInMonth y 1 = 28 + L := by
    cases hbb : isLeap y <;> rw [hy, hbb] <;> simp [daysInMonth, hbb]
  have db0 : daysBefore y 0 = 0 := by
    cases hbb : isLeap y <;> simp [daysBefore, daysBeforeBase, hbb]
  have db1 : daysBefore y 1 = 31 := by
    cases hbb : isLeap y <;> simp [daysBefore, daysBeforeBase, hbb]
  have db2 : ∀ m, 2 ≤ m → daysBefore y m = daysBeforeBase m + L := by
    intro m hm
    cases hbb : isLeap y <;> rw [hy, hbb] <;> simp [daysBefore, hm, hbb]
  rcases hcc : civilOfDoyL y L r with ⟨cy, cm, cd⟩
  dsimp only
  unfold civilOfDoyL at hcc
  by_cases h0 : r < 31
  · rw [if_pos h0] at hcc
    injection hcc with hA hB hC
    subst hA; subst hB; subst hC
    rw [db0]; omega
  rw [if_neg h0] at hcc
  by_cases h1 : r < 59 + L
  · rw [if_pos h1] at hcc
    injection hcc with hA hB hC
    subst hA; subst hB; subst hC
    rw [db1]; omega
  rw [if_neg h1] at hcc
  by_cases h2 : r < 90 + L
  · rw [if_pos h2] at hcc
    injection hcc with hA hB hC
    subst hA; subst hB; subst hC
    rw [db2 _ (by omega)]; omega
  rw [if_neg h2] at hcc
  by_cases h3 : r < 120 + L
  · rw [if_pos h3] at hcc
    injection hcc with hA hB hC
    subst hA; subst hB; subst hC
    rw [db2 _ (by omega)]; omega
  rw [if_neg h3] at hcc
  by_cases h4 : r < 151 + L
  · rw [if_pos h4] at hcc
    injection hcc with hA hB hC
    subst hA; subst hB; subst hC
    rw [db2 _ (by omega)]; omega
  rw [if_neg h4] at hcc
  by_cases h5 : r < 181 + L
  · rw [if_pos h5] at hcc
    injection hcc with hA hB hC
    subst hA; subst hB; subst hC
    rw [db2 _ (by omega)]; omega
  rw [if_neg h5] at hcc
  by_cases h6 : r < 212 + L
  · rw [if_pos h6] at hcc
    injection hcc with hA hB hC
    subst hA; subst hB; subst hC
    rw [db2 _ (by omega)]; omega
  rw [if_neg h6] at hcc
  by_cases h7 : r < 243 + L
  · rw [if_pos h7] at hcc
    injection hcc with hA hB hC
    subst hA; subst hB; subst hC
    rw [db2 _ (by omega)]; omega
  rw [if_neg h7] at hcc
  by_cases h8 : r < 273 + L
  · rw [if_pos h8] at hcc
    injection hcc with hA hB hC
    subst hA; subst hB; subst hC
    rw [db2 _ (by omega)]; omega
  rw [if_neg h8] at hcc
  by_cases h9 : r < 304 + L
  · rw [if_pos h9] at hcc
    injection hcc with hA hB hC
    subst hA; subst hB; subst hC
    rw [db2 _ (by omega)]; omega
  rw [if_neg h9] at hcc
  by_cases h10 : r < 334 + L
  · rw [if_pos h10] at hcc
    injection hcc with hA hB hC
    subst hA; subst hB; subst hC
    rw [db2 _ (by omega)]; omega
  rw [if_neg h10] at hcc
  injection hcc with hA hB hC
  subst hA; subst hB; subst hC
  rw [db2 _ (by omega)]; omega


set_option maxHeartbeats 1000000 in
theorem fromOrd_correct (z : Nat) (hz : 1 ≤ z) :
    1 ≤ (fromOrd z).year ∧ (fromOrd z).month < 12 ∧ 1 ≤ (fromOrd z).day ∧
    (fromOrd z).day ≤ daysInMonth (fromOrd z).year (fromOrd z).month ∧
    mkOrd (fromOrd z).year (fromOrd z).month (fromOrd z).day = z := by
  unfold fromOrd fromOrdAux
  set n := z - 1 with hn
  set a := n / 146097 with ha
  set r1 := n % 146097 with hr1
  set b := r1 / 36524 with hb4
  set r2 := r1 % 36524 with hr2
  set c := r2 / 1461 with hc
  set r3 := r2 % 1461 with hr3
  set e := r3 / 365 with he
  set r4 := r3 % 365 with hr4
  have hd1 : n = 146097 * a + r1 ∧ r1 ≤ 146096 := by omega
  have hd2 : r1 = 36524 * b + r2 ∧ r2 ≤ 36523 := by omega
  have hd3 : r2 = 1461 * c + r3 ∧ r3 ≤ 1460 := by omega
  have hd4 : r3 = 365 * e + r4 ∧ r4 ≤ 364 := by omega
  by_cases hSp : e = 4 ∨ b = 4
  · rw [if_pos hSp]
    dsimp only
    set y := 400 * a + 100 * b + 4 * c + e with hy
    have hred : mkOrd y 11 31 = 365 * (y - 1) + leapsBefore y + daysBefore y 11 + 31 := by
      simp [mkOrd]
    have g11 : daysInMonth y 11 = 31 := rfl
    rcases hSp with hSp | hSp
    · have hbb : b ≤ 3 := by omega
      have hcc : c ≤ 23 := by omega
      have hv : r4 = 0 := by omega
      have hleap : isLeap y = true := by
        rw [isLeap_iff]
        left
        omega
      have hdb : daysBefore y 11 = 335 := by
        simp [daysBefore, daysBeforeBase, hleap]
      refine ⟨by omega, by omega, by omega, by omega, ?_⟩
      rw [hred, hdb]
      unfold leapsBefore
      have hq4 : (y - 1) / 4 = 100 * a + 25 * b + c := by omega
      have hq100 : (y - 1) / 100 = 4 * a + b := by omega
      have hq400 : (y - 1) / 400 = a := by omega
      rw [hq4, hq100, hq400]
      omega
    · have hr1v : r1 = 146096 := by omega
      have hr2v : r2 = 0 := by omega
      have hcv : c = 0 := by omega
      have hev : e = 0 := by omega
      have hleap : isLeap y = true := by
        rw [isLeap_iff]
        right
        omega
      have hdb : daysBefore y 11 = 335 := by
        simp [daysBefore, daysBeforeBase, hleap]
      refine ⟨by omega, by omega, by omega, by omega, ?_⟩
      rw [hred, hdb]
      unfold leapsBefore
      have hq4 : (y - 1) / 4 = 100 * a + 99 := by omega
      have hq100 : (y - 1) / 100 = 4 * a + 3 := by omega
      have hq400 : (y - 1) / 400 = a := by omega
      rw [hq4, hq100, hq400]
      omega
  · rw [if_neg hSp]
    push_neg at hSp
    set y := 400 * a + 100 * b + 4 * c + e + 1 with hy
    have hbb : b ≤ 3 := by omega
    have hcc : c ≤ 24 := by omega
    have hee : e ≤ 3 := by omega
    have hr4' : r4 < 365 + (if isLeap y then 1 else 0) := by
      cases hbb : isLeap y <;> simp <;> omega
    unfold civilOfDoy
    obtain ⟨hYear, hMonth, hD1, hD2, hSum⟩ :=
      civilOfDoyL_correct y (if isLeap y then 1 else 0) r4 rfl hr4'
    refine ⟨?_, hMonth, hD1, ?_, ?_⟩
    · rw [hYear]
      omega
    · rw [hYear]
      exact hD2
    · rw [hYear]
      set m := (civilOfDoyL y (if isLeap y then 1 else 0) r4).month with hm
      set d := (civilOfDoyL y (if isLeap y then 1 else 0) r4).day with hd
      have hm0 : m / 12 = 0 := by omega
      have hmm : m % 12 = m := by omega
      simp only [mkOrd, hm0, hmm, Nat.add_zero]
      unfold leapsBefore
      have hq4 : (y - 1) / 4 = 100 * a + 25 * b + c := by omega
      have hq100 : (y - 1) / 100 = 4 * a + b := by omega
      have hq400 : (y - 1) / 400 = a := by omega
      rw [hq4, hq100, hq400]
      omega



theorem mkOrd_pos (y m d : Nat) (hd : 1 ≤ d) : 1 ≤ mkOrd y m d := by
  simp only [mkOrd]
  omega

theorem mkOrd_day (y m d : Nat) (hd : 1 ≤ d) : mkOrd y m d = mkOrd y m 1 + (d - 1) := by
  simp only [mkOrd]
  omega

theorem mkOrd_norm (y m d : Nat) : mkOrd y m d = mkOrd (y + m / 12) (m % 12) d := by
  simp only [mkOrd]
  have h1 : (m % 12) / 12 = 0 := by omega
  have h2 : (m % 12) % 12 = m % 12 := by omega
  rw [h1, h2]
  simp

theorem mkOrd_next (y m d : Nat) (hy : 1 ≤ y) :
    mkOrd y (m + 1) d = mkOrd y m d + daysInMonth (y + m / 12) (m % 12) := by
  by_cases hM11 : m % 12 = 11
  · have h1 : (m + 1) / 12 = m / 12 + 1 := by omega
    have h2 : (m + 1) % 12 = 0 := by omega
    have h3 : y + (m / 12 + 1) = (y + m / 12) + 1 := by omega
    simp only [mkOrd, h1, h2, hM11, h3]
    have h4 := leapsBefore_succ (y + m / 12) (by omega)
    have h5 := daysBefore_eleven (y + m / 12)
    have h6 : daysBefore (y + m / 12 + 1) 0 = 0 := by
      simp [daysBefore, daysBeforeBase]
    rw [h6]
    cases hL : isLeap (y + m / 12) <;> rw [hL] at h4 h5 <;> simp at h4 h5 <;> omega
  · have h1 : (m + 1) / 12 = m / 12 := by omega
    have h2 : (m + 1) % 12 = m % 12 + 1 := by omega
    simp only [mkOrd, h1, h2]
    have h5 := daysBefore_succ (y + m / 12) (m % 12) (by omega)
    omega

/-- Ordinal of the first day of month index `k` (counted from January of year 1). -/
def monthStart (k : Nat) : Nat := mkOrd 1 k 1

theorem monthStart_succ (k : Nat) :
    monthStart (k + 1) = monthStart k + daysInMonth (1 + k / 12) (k % 12) :=
  mkOrd_next 1 k 1 (by omega)

theorem monthStart_add_dim_le (k k' : Nat) (h : k < k') :
    monthStart k + daysInMonth (1 + k / 12) (k % 12) ≤ monthStart k' := by
  obtain ⟨j, rfl⟩ : ∃ j, k' = k + 1 + j := ⟨k' - (k + 1), by omega⟩
  clear h
  induction j with
  | zero => exact (monthStart_succ k).ge
  | succ i ih =>
    have h2 : k + 1 + (i + 1) = (k + 1 + i) + 1 := by omega
    rw [h2, monthStart_succ (k + 1 + i)]
    have h3 := daysInMonth_ge (1 + (k + 1 + i) / 12) ((k + 1 + i) % 12)
    omega

theorem mkOrd_eq_monthStart (y m d : Nat) (hy : 1 ≤ y) (hm : m < 12) (hd : 1 ≤ d) :
    mkOrd y m d = monthStart (12 * (y - 1) + m) + (d - 1) := by
  simp only [monthStart, mkOrd]
  have h1 : (12 * (y - 1) + m) / 12 = y - 1 := by omega
  have h2 : (12 * (y - 1) + m) % 12 = m := by omega
  have h4 : m / 12 = 0 := by omega
  have h5 : m % 12 = m := by omega
  rw [h1, h2, h4, h5]
  have h3 : 1 + (y - 1) = y := by omega
  rw [h3]
  simp
  omega

theorem mkOrd_inj (y m d y' m' d' : Nat)
    (hy : 1 ≤ y) (hm : m < 12) (hd1 : 1 ≤ d) (hd2 : d ≤ daysInMonth y m)
    (hy' : 1 ≤ y') (hm' : m' < 12) (hd1' : 1 ≤ d') (hd2' : d' ≤ daysInMonth y' m')
    (heq : mkOrd y m d = mkOrd y' m' d') : y = y' ∧ m = m' ∧ d = d' := by
  have e1 := mkOrd_eq_monthStart y m d hy hm hd1
  have e2 := mkOrd_eq_monthStart y' m' d' hy' hm' hd1'
  have hk1 : 1 + (12 * (y - 1) + m) / 12 = y := by omega
  have hk2 : (12 * (y - 1) + m) % 12 = m := by omega
  have hk1' : 1 + (12 * (y' - 1) + m') / 12 = y' := by omega
  have hk2' : (12 * (y' - 1) + m') % 12 = m' := by omega
  rcases Nat.lt_trichotomy (12 * (y - 1) + m) (12 * (y' - 1) + m') with h | h | h
  · have hle := monthStart_add_dim_le _ _ h
    rw [hk1, hk2] at hle
    omega
  · have hyy : y = y' := by omega
    have hmm2 : m = m' := by omega
    subst hyy
    subst hmm2
    refine ⟨rfl, rfl, by omega⟩
  · have hle := monthStart_add_dim_le _ _ h
    rw [hk1', hk2'] at hle
    omega

theorem fromOrd_mkOrd (y m d : Nat)
    (hy : 1 ≤ y) (hm : m < 12) (hd1 : 1 ≤ d) (hd2 : d ≤ daysInMonth y m) :
    fromOrd (mkOrd y m d) = ⟨y, m, d⟩ := by
  have hz : 1 ≤ mkOrd y m d := mkOrd_pos y m d hd1
  obtain ⟨h1, h2, h3, h4, h5⟩ := fromOrd_correct (mkOrd y m d) hz
  rcases hc : fromOrd (mkOrd y m d) with ⟨cy, cm, cd⟩
  rw [hc] at h1 h2 h3 h4 h5
  dsimp only at h1 h2 h3 h4 h5
  obtain ⟨hA, hB, hC⟩ := mkOrd_inj cy cm cd y m d h1 h2 h3 h4 hy hm hd1 hd2 h5
  rw [hA, hB, hC]



/-- JavaScript `date.setMonth(date.getMonth() + 1)` at the day-ordinal level:
re-interpret the date in the next month, letting a too-large day overflow into
the following months exactly as JavaScript does. -/
def setMonthIncr (z : Nat) : Nat :=
  mkOrd (fromOrd z).year ((fromOrd z).month + 1) (fromOrd z).day

/-- JavaScript `new Date(date.getFullYear(), date.getMonth() + 1, 0).getDate()`:
the number of days in the month the date lies in. -/
def lastDayOf (z : Nat) : Nat := daysInMonth (fromOrd z).year (fromOrd z).month

/-- JavaScript `date.setDate(d)` at the day-ordinal level. -/
def setDayOf (z d : Nat) : Nat := mkOrd (fromOrd z).year (fromOrd z).month d

/-- JavaScript `date.setFullYear(date.getFullYear() + 1)` at the day-ordinal level. -/
def addYearOne (z : Nat) : Nat :=
  mkOrd ((fromOrd z).year + 1) (fromOrd z).month (fromOrd z).day

theorem monthly_gt (z dom : Nat) (hz : 1 ≤ z) (hdom : 1 ≤ dom) :
    z < setDayOf (setMonthIncr z) (min dom (lastDayOf (setMonthIncr z))) := by
  obtain ⟨hy1, hm1, hd1, hd2, hmk⟩ := fromOrd_correct z hz
  unfold setDayOf setMonthIncr lastDayOf
  set y := (fromOrd z).year with hsy
  set m := (fromOrd z).month with hsm
  set d := (fromOrd z).day with hsd
  have hnorm : mkOrd y (m + 1) d = mkOrd (y + (m + 1) / 12) ((m + 1) % 12) d :=
    mkOrd_norm y (m + 1) d
  set Y1 := y + (m + 1) / 12 with hY1
  set M1 := (m + 1) % 12 with hM1
  have hY1p : 1 ≤ Y1 := by omega
  have hM1lt : M1 < 12 := by omega
  have h2 : mkOrd y (m + 1) 1 = mkOrd y m 1 + daysInMonth y m := by
    have h := mkOrd_next y m 1 (by omega)
    rw [show m / 12 = 0 from by omega, show m % 12 = m from by omega] at h
    simp only [Nat.add_zero] at h
    exact h
  have h3 : mkOrd Y1 M1 1 = mkOrd y (m + 1) 1 := (mkOrd_norm y (m + 1) 1).symm
  have h4 : mkOrd y m d = mkOrd y m 1 + (d - 1) := mkOrd_day y m d hd1
  by_cases hcase : d ≤ daysInMonth Y1 M1
  · have hfo : fromOrd (mkOrd Y1 M1 d) = ⟨Y1, M1, d⟩ :=
      fromOrd_mkOrd Y1 M1 d hY1p hM1lt hd1 hcase
    rw [hnorm, hfo]
    dsimp only
    have hmin : 1 ≤ min dom (daysInMonth Y1 M1) := by
      have := daysInMonth_ge Y1 M1
      omega
    have h1 := mkOrd_day Y1 M1 (min dom (daysInMonth Y1 M1)) hmin
    omega
  · push_neg at hcase
    have hdim1 : 28 ≤ daysInMonth Y1 M1 := daysInMonth_ge _ _
    have hdimym : daysInMonth y m ≤ 31 := daysInMonth_le _ _
    set dd := d - daysInMonth Y1 M1 with hdd
    have hddp : 1 ≤ dd := by omega
    have hshift := mkOrd_next Y1 M1 dd hY1p
    rw [show M1 / 12 = 0 from by omega, show M1 % 12 = M1 from by omega] at hshift
    simp only [Nat.add_zero] at hshift
    have haff : mkOrd Y1 M1 d = mkOrd Y1 M1 dd + daysInMonth Y1 M1 := by
      have u1 := mkOrd_day Y1 M1 d hd1
      have u2 := mkOrd_day Y1 M1 dd hddp
      omega
    have hz' : mkOrd Y1 M1 d = mkOrd Y1 (M1 + 1) dd := by omega
    have hnorm2 : mkOrd Y1 (M1 + 1) dd =
        mkOrd (Y1 + (M1 + 1) / 12) ((M1 + 1) % 12) dd := mkOrd_norm Y1 (M1 + 1) dd
    set Y2 := Y1 + (M1 + 1) / 12 with hY2
    set M2 := (M1 + 1) % 12 with hM2
    have hdim2 : 28 ≤ daysInMonth Y2 M2 := daysInMonth_ge _ _
    have hvd : dd ≤ daysInMonth Y2 M2 := by omega
    have hfo : fromOrd (mkOrd Y2 M2 dd) = ⟨Y2, M2, dd⟩ :=
      fromOrd_mkOrd Y2 M2 dd (by omega) (by omega) hddp hvd
    rw [hnorm, hz', hnorm2, hfo]
    dsimp only
    have hmin : 1 ≤ min dom (daysInMonth Y2 M2) := by omega
    have h1 := mkOrd_day Y2 M2 (min dom (daysInMonth Y2 M2)) hmin
    have h5 : mkOrd Y2 M2 1 = mkOrd Y1 (M1 + 1) 1 := (mkOrd_norm Y1 (M1 + 1) 1).symm
    have h6 : mkOrd Y1 (M1 + 1) 1 = mkOrd Y1 M1 1 + daysInMonth Y1 M1 := by
      have h := mkOrd_next Y1 M1 1 hY1p
      rw [show M1 / 12 = 0 from by omega, show M1 % 12 = M1 from by omega] at h
      simp only [Nat.add_zero] at h
      exact h
    omega

theorem yearly_gt (z : Nat) (hz : 1 ≤ z) : z < addYearOne z := by
  obtain ⟨hy1, hm1, hd1, hd2, hmk⟩ := fromOrd_correct z hz
  unfold addYearOne
  set y := (fromOrd z).year with hsy
  set m := (fromOrd z).month with hsm
  set d := (fromOrd z).day with hsd
  have hm0 : m / 12 = 0 := by omega
  have hmm : m % 12 = m := by omega
  have l1 : leapsBefore y ≤ leapsBefore (y + 1) := by
    unfold leapsBefore
    omega
  have l2 : daysBeforeBase m ≤ daysBefore (y + 1) m := by
    unfold daysBefore
    split_ifs <;> omega
  have l3 : daysBefore y m ≤ daysBeforeBase m + 1 := by
    unfold daysBefore
    split_ifs <;> omega
  simp only [mkOrd, hm0, hmm, Nat.add_zero] at hmk ⊢
  omega

/-- A JavaScript `Date` value: a rata-die day ordinal plus the milliseconds
elapsed within that day.  The engine's date arithmetic never changes the
time-of-day component (the deployment timezone, Asia/Kolkata, has no
daylight-saving shifts), so a timestamp is represented faithfully by this pair. -/
structure DT where
  day : Nat
  ms : Nat
deriving DecidableEq, Repr

/-- Milliseconds since the origin of the embedding; JavaScript compares `Date`
values by their millisecond count, an affine shift of this one. -/
def DT.millis (t : DT) : Nat := t.day * 86400000 + t.ms

/-- Strict order on timestamps (the JavaScript `<` on `Date` values). -/
def DT.lt (t u : DT) : Prop := t.millis < u.millis

/-- Order on timestamps (the JavaScript `<=` on `Date` values). -/
def DT.le (t u : DT) : Prop := t.millis ≤ u.millis

instance (t u : DT) : Decidable (DT.lt t u) := by
  unfold DT.lt
  infer_instance

instance (t u : DT) : Decidable (DT.le t u) := by
  unfold DT.le
  infer_instance

/-- JavaScript `date.setDate(date.getDate() + k)`: advance by whole days. -/
def DT.addDays (t : DT) (k : Nat) : DT := ⟨t.day + k, t.ms⟩

/-- JavaScript `date.getDay()`: weekday, 0 = Sunday (ordinal 1 is a Monday). -/
def DT.getDay (t : DT) : Nat := t.day % 7

/-- JavaScript `date.setMonth(date.getMonth() + 1)` on a timestamp. -/
def DT.setMonthIncr (t : DT) : DT := ⟨JsDate.setMonthIncr t.day, t.ms⟩

/-- Number of days in the month the timestamp lies in, as the source computes
with `new Date(getFullYear(), getMonth() + 1, 0).getDate()`. -/
def DT.lastDayOf (t : DT) : Nat := JsDate.lastDayOf t.day

/-- JavaScript `date.setDate(d)` on a timestamp. -/
def DT.setDayOf (t : DT) (d : Nat) : DT := ⟨JsDate.setDayOf t.day d, t.ms⟩

/-- JavaScript `date.setFullYear(date.getFullYear() + 1)` on a timestamp. -/
def DT.addYearOne (t : DT) : DT := ⟨JsDate.addYearOne t.day, t.ms⟩

end JsDate

open JsDate (DT)

/-- Transaction direction, the `type` field of both models. -/
inductive TxType
  | income
  | expense
deriving DecidableEq, Repr

/-- The `frequency` enum of the RecurringTransaction schema. -/
inductive Frequency
  | daily
  | weekly
  | monthly
  | yearly
deriving DecidableEq, Repr

/-- A document of the RecurringTransaction model
(`backend/src/models/RecurringTransaction.js`).  Identifiers are opaque
numbers.  The schema stores `dayOfMonth`, `dayOfWeek` and `month` as optional
numbers validated only for the frequency that uses them; they are embedded as
plain numbers, with `ValidTemplate` carrying the frequency-selected range
checks, mirroring the schema validators. -/
structure RecurringTransaction where
  id : Nat
  userId : Nat
  type : TxType
  amount : ℚ
  category : String
  description : String
  startDate : DT
  endDate : Option DT
  frequency : Frequency
  dayOfMonth : Nat
  dayOfWeek : Nat
  month : Nat
  isActive : Bool
  lastProcessed : Option DT
  nextOccurrence : DT
deriving DecidableEq, Repr

/-- The schema validators of the RecurringTransaction model: positive bounded
amount, end date strictly after start date, and the frequency-specific field in
range.  The final two clauses state that the stored dates lie in the proleptic
range of the embedding (day ordinal at least 1, that is year at least 1), which
every JavaScript-representable modern date satisfies.  The category enumeration
and the description length bound are not needed by any claim and are left out. -/
def endDateAfterStart (t : RecurringTransaction) : Bool :=
  match t.endDate with
  | some e => decide (t.startDate.lt e)
  | none => true

def ValidTemplate (t : RecurringTransaction) : Prop :=
  0 < t.amount ∧ t.amount ≤ 10000000 ∧
  endDateAfterStart t = true ∧
  (t.frequency = Frequency.monthly → 1 ≤ t.dayOfMonth ∧ t.dayOfMonth ≤ 31) ∧
  (t.frequency = Frequency.weekly → t.dayOfWeek ≤ 6) ∧
  (t.frequency = Frequency.yearly → t.month ≤ 11) ∧
  1 ≤ t.nextOccurrence.day ∧ 1 ≤ t.startDate.day

instance (t : RecurringTransaction) : Decidable (ValidTemplate t) := by
  unfold ValidTemplate
  infer_instance

/-- The base date `calculateNextOccurrence` advances from: the source computes
`new Date(this.nextOccurrence || this.startDate)` and replaces it by
`nextOccurrence` when that is after now.  The schema makes `nextOccurrence`
required, so both branches yield `nextOccurrence`; the comparison against the
wall clock is kept as in the source. -/
def baseDate (t : RecurringTransaction) (now : DT) : DT :=
  if now.lt t.nextOccurrence then t.nextOccurrence else t.nextOccurrence

/-- The `switch (this.frequency)` block of `calculateNextOccurrence`
(RecurringTransaction.js): the candidate date before the end-date check.
daily adds one day; weekly advances to the next date of weekday `dayOfWeek`,
a full week when the base already lies on it; monthly moves the date into the
next month with JavaScript overflow and then sets the day to
`min(dayOfMonth, last day of the month reached)`; yearly adds one year. -/
def rawNext (t : RecurringTransaction) (base : DT) : DT :=
  match t.frequency with
  | Frequency.daily => base.addDays 1
  | Frequency.weekly =>
      base.addDays
        (if (t.dayOfWeek + 7 - base.getDay) % 7 = 0 then 7
         else (t.dayOfWeek + 7 - base.getDay) % 7)
  | Frequency.monthly =>
      DT.setDayOf base.setMonthIncr (min t.dayOfMonth (DT.lastDayOf base.setMonthIncr))
  | Frequency.yearly => base.addYearOne

/-- Method `calculateNextOccurrence` of the RecurringTransaction model.  The
method reads the wall clock with `new Date()`; the embedding receives that
reading as `now`.  An inactive template yields null; otherwise the candidate is
computed from the base date by the frequency rule and rejected (null) exactly
when the template has an `endDate` and the candidate is strictly after it. -/
def calculateNextOccurrence (t : RecurringTransaction) (now : DT) : Option DT :=
  if t.isActive = false then none
  else
    match t.endDate with
    | some e =>
        if e.lt (rawNext t (baseDate t now)) then none
        else some (rawNext t (baseDate t now))
    | none => some (rawNext t (baseDate t now))

/-- The Mongo selection predicate of the static `getTransactionsToProcess`:
`isActive: true`, `nextOccurrence ≤ now`, and `endDate` either absent or
`≥ now`. -/
def dueFilter (now : DT) (t : RecurringTransaction) : Bool :=
  t.isActive && decide (t.nextOccurrence.le now) &&
    (match t.endDate with
     | none => true
     | some e => decide (now.le e))

/-- Static `getTransactionsToProcess` of the RecurringTransaction model: the
due-scan query over the stored collection, modelled as a list filter. -/
def getTransactionsToProcess (store : List RecurringTransaction) (now : DT) :
    List RecurringTransaction :=
  store.filter (dueFilter now)

/-- The `pre('save')` hook of the model: when the document is new or
`frequency`, `startDate` or `endDate` was modified, reset `nextOccurrence` to
`startDate` and, when `startDate` is already past, advance it once with
`calculateNextOccurrence`.  When that advance yields null, the save fails the
`required` validator on `nextOccurrence`; the embedding returns `none` for such
a failing save. -/
def preSave (t : RecurringTransaction) (modifiedCadence : Bool) (now : DT) :
    Option RecurringTransaction :=
  if modifiedCadence then
    if t.startDate.lt now then
      match calculateNextOccurrence { t with nextOccurrence := t.startDate } now with
      | some d => some { t with nextOccurrence := d }
      | none => none
    else some { t with nextOccurrence := t.startDate }
  else some t

/-- A document of the Transaction model (`backend/src/models/Transaction.js`),
restricted to the fields the recurring engine writes: the materialized entry
carries the recurrence back-references `isFromRecurring` and
`recurringTransactionId`. -/
structure Transaction where
  userId : Nat
  type : TxType
  amount : ℚ
  category : String
  description : String
  date : DT
  isFromRecurring : Bool
  recurringTransactionId : Option Nat
deriving DecidableEq, Repr

/-- The ledger entry a batch cycle materializes from a due template
(the controller's loop, `src/unnamed/part_002:661-687`, together with
`createTransaction`, `transactionController.js:6-46`).  The request body the
loop builds carries only `type`, `amount`, `category`, `description` (defaulted
to "Recurring: " followed by the category when empty) and `date =
template.nextOccurrence`; it contains no recurrence back-references, and
`createTransaction` reads none, so the stored entry keeps the Transaction
schema defaults `isFromRecurring = false` and `recurringTransactionId = null`. -/
def materializeEntry (t : RecurringTransaction) : Transaction :=
  { userId := t.userId
    type := t.type
    amount := t.amount
    category := t.category
    description := if t.description = "" then "Recurring: " ++ t.category else t.description
    date := t.nextOccurrence
    isFromRecurring := false
    recurringTransactionId := none }

/-- The per-template update content the batch cycle accumulates for its
end-of-cycle bulkWrite (`src/unnamed/part_002:693-709`): set `lastProcessed` to
now, `nextOccurrence` to the calculator's output and `isActive` to whether that
output exists.  The schema requires `nextOccurrence`, so when the calculator
yields null the field keeps its previous value and only `isActive` is cleared. -/
def advanceTemplate (t : RecurringTransaction) (now : DT) : RecurringTransaction :=
  match calculateNextOccurrence t now with
  | some d => { t with lastProcessed := some now, nextOccurrence := d, isActive := true }
  | none => { t with lastProcessed := some now, isActive := false }

/-- The result object a completed cycle returns
(`src/unnamed/part_002:637-751`): a success flag, the number of templates
successfully materialized, and a timestamp.  Per-template failures are only
logged; the result carries no per-template error list. -/
structure ProcessResult where
  success : Bool
  processed : Nat
  timestamp : DT
deriving DecidableEq, Repr

/-- The ledger entries written during one cycle attempt: one per selected
template whose ledger write succeeds.  `ledgerOk` abstracts the Ledger
collaborator (whether `createTransaction` succeeds for a given template); a
failing write is caught, logged and skipped. -/
def cycleWritten (store : List RecurringTransaction)
    (ledgerOk : RecurringTransaction → Bool) (now : DT) : List Transaction :=
  ((getTransactionsToProcess store now).filter ledgerOk).map materializeEntry

/-- The template store after the end-of-cycle bulkWrite commits: every selected
template whose ledger write succeeded is advanced, every other template is
untouched (a failed write is caught before its update op is accumulated). -/
def cycleAdvance (store : List RecurringTransaction)
    (ledgerOk : RecurringTransaction → Bool) (now : DT) : List RecurringTransaction :=
  store.map (fun t => if dueFilter now t && ledgerOk t then advanceTemplate t now else t)

/-- One completed batch cycle of `processRecurringTransactions`
(`src/unnamed/part_002:637-751`): select the due templates, write one ledger
entry per selected template (outside the batch session, immediately durable,
failures logged and skipped), then commit all template advances in a single
bulkWrite, and return `⟨success, processed, timestamp⟩` together with the
updated store and the entries written.  No per-template error information
appears in the result. -/
def processRecurringTransactions (store : List RecurringTransaction)
    (ledgerOk : RecurringTransaction → Bool) (now : DT) :
    ProcessResult × List RecurringTransaction × List Transaction :=
  ⟨⟨true, ((getTransactionsToProcess store now).filter ledgerOk).length, now⟩,
    cycleAdvance store ledgerOk now,
    cycleWritten store ledgerOk now⟩

/-- The failure boundary of one cycle invocation: an unreachable store makes
the selection read fail and the whole cycle aborts with that error, and a
failure of the end-of-cycle bulkWrite (or its session commit) likewise escapes
as an exception (`bulkOk` abstracts that commit succeeding); only then does the
cycle return its normal result.  Per-template ledger failures never escape. -/
def processCycle (fetch : Except String (List RecurringTransaction))
    (ledgerOk : RecurringTransaction → Bool) (bulkOk : Bool) (now : DT) :
    Except String (ProcessResult × List RecurringTransaction × List Transaction) :=
  match fetch with
  | Except.error e => Except.error e
  | Except.ok store =>
      if bulkOk then Except.ok (processRecurringTransactions store ledgerOk now)
      else Except.error "bulkWrite failed"

/-- The toggle-active lifecycle operation (`src/unnamed/part_002:458-518`, with
a near-duplicate at 573-634): flip `isActive`; when reactivating with a stale
`nextOccurrence` (before now) recompute it on the reactivated document with the
model's `calculateNextOccurrence`, and reject the toggle when that
recomputation yields null. -/
def toggleActiveStatus (t : RecurringTransaction) (now : DT) :
    Except String RecurringTransaction :=
  if t.isActive then Except.ok { t with isActive := false }
  else
    if t.nextOccurrence.lt now then
      match calculateNextOccurrence { t with isActive := true } now with
      | some d => Except.ok { t with isActive := true, nextOccurrence := d }
      | none => Except.error "no valid future occurrence"
    else Except.ok { t with isActive := true }

/-- True when the update changes `frequency`, `startDate` or `endDate` — the
condition under which the model's pre-save hook would recompute
`nextOccurrence` if a save ran it. -/
def cadenceChanged (orig upd : RecurringTransaction) : Bool :=
  decide (orig.frequency ≠ upd.frequency) || decide (orig.startDate ≠ upd.startDate) ||
    decide (orig.endDate ≠ upd.endDate)

/-- The update lifecycle operation (`src/unnamed/part_002:431-455`): a
`findOneAndUpdate` applies the requested field changes and returns the updated
document.  `orig` is the stored document and `upd` the document with the
request's changes applied.  `findOneAndUpdate` never runs the model's
`pre('save')` hook, so the stored scheduling state — `nextOccurrence`,
`lastProcessed` — is returned unchanged: no recomputation of `nextOccurrence`
happens on an update. -/
def updateRecurringTransaction (orig upd : RecurringTransaction) :
    RecurringTransaction :=
  { upd with nextOccurrence := orig.nextOccurrence, lastProcessed := orig.lastProcessed }

/-- State of the persistent stores: the template collection and the ledger. -/
structure SysState where
  templates : List RecurringTransaction
  entries : List Transaction
deriving DecidableEq, Repr

/-- The observable outcomes of one cycle attempt
(`src/unnamed/part_002:637-751`).  The ledger writes run one per template
outside the batch session and are durable as soon as they happen, while every
template advance is only accumulated and committed in the single end-of-cycle
bulkWrite.  A `complete` transition is an attempt whose final commit succeeded;
an `interrupted` transition is an attempt cut off before that commit — a crash
after `k` ledger writes, or a failed bulkWrite — which leaves every template
unchanged while a prefix of the written entries is already durable.  Finite
sequences of these transitions are exactly the states an interleaving of cycle
invocations and interruptions can produce. -/
inductive CycleOp : SysState → SysState → Prop where
  | complete (s : SysState) (ledgerOk : RecurringTransaction → Bool) (now : DT) :
      CycleOp s ⟨cycleAdvance s.templates ledgerOk now,
        s.entries ++ cycleWritten s.templates ledgerOk now⟩
  | interrupted (s : SysState) (ledgerOk : RecurringTransaction → Bool) (now : DT) (k : Nat) :
      CycleOp s ⟨s.templates, s.entries ++ (cycleWritten s.templates ledgerOk now).take k⟩

theorem DT_lt_of_day (a b : DT) (h1 : a.day < b.day) (h2 : b.ms = a.ms) : a.lt b := by
  unfold JsDate.DT.lt JsDate.DT.millis
  omega

theorem DT_lt_trans (a b c : DT) (h1 : a.lt b) (h2 : b.lt c) : a.lt c := by
  unfold JsDate.DT.lt at *
  omega

theorem DT_lt_ne (a b : DT) (h : a.lt b) : b ≠ a := by
  intro he
  rw [he] at h
  exact absurd h (by unfold JsDate.DT.lt; omega)

theorem baseDate_eq (t : RecurringTransaction) (now : DT) :
    baseDate t now = t.nextOccurrence := by
  unfold baseDate
  split <;> rfl

theorem calc_eq_some (t : RecurringTransaction) (now : DT) (d : DT)
    (h : calculateNextOccurrence t now = some d) :
    t.isActive = true ∧ d = rawNext t t.nextOccurrence := by
  unfold calculateNextOccurrence at h
  by_cases ha : t.isActive = false
  · rw [if_pos ha] at h
    exact absurd h (by simp)
  · rw [if_neg ha, baseDate_eq] at h
    refine ⟨by simpa using ha, ?_⟩
    rcases hE : t.endDate with _ | e
    · rw [hE] at h
      dsimp only at h
      simp only [Option.some.injEq] at h
      exact h.symm
    · rw [hE] at h
      dsimp only at h
      by_cases hlt : e.lt (rawNext t t.nextOccurrence)
      · rw [if_pos hlt] at h
        exact absurd h (by simp)
      · rw [if_neg hlt] at h
        simp only [Option.some.injEq] at h
        exact h.symm

theorem calc_eq_none (t : RecurringTransaction) (now : DT)
    (ha : t.isActive = true) (h : calculateNextOccurrence t now = none) :
    ∃ e, t.endDate = some e ∧ e.lt (rawNext t t.nextOccurrence) := by
  unfold calculateNextOccurrence at h
  rw [if_neg (by simp [ha]), baseDate_eq] at h
  rcases hE : t.endDate with _ | e
  · rw [hE] at h
    exact absurd h (by simp)
  · rw [hE] at h
    dsimp only at h
    refine ⟨e, rfl, ?_⟩
    by_cases hlt : e.lt (rawNext t t.nextOccurrence)
    · exact hlt
    · rw [if_neg hlt] at h
      exact absurd h (by simp)

theorem rawNext_day_gt (t : RecurringTransaction) (hv : ValidTemplate t) :
    t.nextOccurrence.day < (rawNext t t.nextOccurrence).day ∧
    (rawNext t t.nextOccurrence).ms = t.nextOccurrence.ms := by
  obtain ⟨-, -, -, hmon, hweek, hyear, hday, -⟩ := hv
  cases hf : t.frequency
  case daily =>
    simp only [rawNext, hf, JsDate.DT.addDays]
    refine ⟨by omega, ?_⟩
    trivial
  case weekly =>
    simp only [rawNext, hf, JsDate.DT.addDays]
    refine ⟨?_, ?_⟩
    · split <;> omega
    · trivial
  case monthly =>
    obtain ⟨hdom, -⟩ := hmon hf
    have h := JsDate.monthly_gt t.nextOccurrence.day t.dayOfMonth hday hdom
    simp only [rawNext, hf, JsDate.DT.setDayOf, JsDate.DT.setMonthIncr, JsDate.DT.lastDayOf]
    refine ⟨h, ?_⟩
    trivial
  case yearly =>
    have h := JsDate.yearly_gt t.nextOccurrence.day hday
    simp only [rawNext, hf, JsDate.DT.addYearOne]
    refine ⟨h, ?_⟩
    trivial

theorem calc_gt (t : RecurringTransaction) (now : DT) (d : DT)
    (hv : ValidTemplate t) (h : calculateNextOccurrence t now = some d) :
    t.nextOccurrence.lt d ∧ t.nextOccurrence.day < d.day ∧ d.ms = t.nextOccurrence.ms := by
  obtain ⟨-, hd⟩ := calc_eq_some t now d h
  obtain ⟨h1, h2⟩ := rawNext_day_gt t hv
  subst hd
  exact ⟨DT_lt_of_day _ _ h1 h2, h1, h2⟩

theorem advanceTemplate_eq_some (t : RecurringTransaction) (now d : DT)
    (h : calculateNextOccurrence t now = some d) :
    advanceTemplate t now =
      { t with lastProcessed := some now, nextOccurrence := d, isActive := true } := by
  simp [advanceTemplate, h]

theorem advanceTemplate_eq_none (t : RecurringTransaction) (now : DT)
    (h : calculateNextOccurrence t now = none) :
    advanceTemplate t now = { t with lastProcessed := some now, isActive := false } := by
  simp [advanceTemplate, h]

theorem advanceTemplate_id (t : RecurringTransaction) (now : DT) :
    (advanceTemplate t now).id = t.id := by
  cases h : calculateNextOccurrence t now
  · rw [advanceTemplate_eq_none t now h]
  · rw [advanceTemplate_eq_some t now _ h]

theorem validTemplate_update (t : RecurringTransaction) (lp : Option DT) (no : DT)
    (ia : Bool) (hv : ValidTemplate t) (hno : 1 ≤ no.day) :
    ValidTemplate { t with lastProcessed := lp, nextOccurrence := no, isActive := ia } := by
  obtain ⟨v1, v2, v3, v4, v5, v6, v7, v8⟩ := hv
  unfold ValidTemplate endDateAfterStart at *
  dsimp only
  exact ⟨v1, v2, v3, v4, v5, v6, hno, v8⟩

theorem validTemplate_update2 (t : RecurringTransaction) (lp : Option DT) (ia : Bool)
    (hv : ValidTemplate t) :
    ValidTemplate { t with lastProcessed := lp, isActive := ia } := by
  obtain ⟨v1, v2, v3, v4, v5, v6, v7, v8⟩ := hv
  unfold ValidTemplate endDateAfterStart at *
  dsimp only
  exact ⟨v1, v2, v3, v4, v5, v6, v7, v8⟩

theorem advanceTemplate_valid (t : RecurringTransaction) (now : DT)
    (hv : ValidTemplate t) : ValidTemplate (advanceTemplate t now) := by
  cases h : calculateNextOccurrence t now
  · rw [advanceTemplate_eq_none t now h]
    exact validTemplate_update2 t (some now) false hv
  · rename_i d
    rw [advanceTemplate_eq_some t now d h]
    obtain ⟨-, hdday, -⟩ := calc_gt t now d hv h
    have v7 := hv.2.2.2.2.2.2.1
    exact validTemplate_update t (some now) d true hv (by omega)

theorem dueFilter_spec (t : RecurringTransaction) (now : DT)
    (h : dueFilter now t = true) :
    t.isActive = true ∧ t.nextOccurrence.le now := by
  unfold dueFilter at h
  simp only [Bool.and_eq_true, decide_eq_true_eq] at h
  exact ⟨h.1.1, h.1.2⟩

theorem materializeEntry_date (t : RecurringTransaction) :
    (materializeEntry t).date = t.nextOccurrence := rfl

theorem advanceTemplate_userId (t : RecurringTransaction) (now : DT) :
    (advanceTemplate t now).userId = t.userId := by
  unfold advanceTemplate
  cases calculateNextOccurrence t now <;> rfl

theorem id_inj_of_nodup (l : List RecurringTransaction)
    (h : (l.map (fun t => t.id)).Nodup) :
    ∀ x ∈ l, ∀ y ∈ l, x.id = y.id → x = y :=
  List.inj_on_of_nodup_map h

/-- One cycle attempt never changes which template ids (with their owning
users) are stored: a completed bulkWrite only rewrites scheduling fields in
place, and an interrupted attempt changes no template at all. -/
theorem cycleOp_key (s s' : SysState) (h : CycleOp s s') :
    s'.templates.map (fun t => (t.id, t.userId)) =
      s.templates.map (fun t => (t.id, t.userId)) := by
  cases h with
  | complete ledgerOk now =>
    dsimp only
    unfold cycleAdvance
    rw [List.map_map]
    refine List.map_congr_left (fun t _ => ?_)
    by_cases hc : (dueFilter now t && ledgerOk t) = true
    · simp only [Function.comp_apply, if_pos hc, advanceTemplate_id, advanceTemplate_userId]
    · simp only [Function.comp_apply, if_neg hc]
  | interrupted ledgerOk now k => rfl

theorem cycleOp_ids (s s' : SysState) (h : CycleOp s s') :
    s'.templates.map (fun t => t.id) = s.templates.map (fun t => t.id) := by
  cases h with
  | complete ledgerOk now =>
    dsimp only
    unfold cycleAdvance
    rw [List.map_map]
    refine List.map_congr_left (fun t _ => ?_)
    by_cases hc : (dueFilter now t && ledgerOk t) = true
    · simp only [Function.comp_apply, if_pos hc, advanceTemplate_id]
    · simp only [Function.comp_apply, if_neg hc]
  | interrupted ledgerOk now k => rfl

theorem cycleOp_entries_mono (s s' : SysState) (h : CycleOp s s') :
    ∀ e ∈ s.entries, e ∈ s'.entries := by
  cases h with
  | complete ledgerOk now => exact fun e he => List.mem_append_left _ he
  | interrupted ledgerOk now k => exact fun e he => List.mem_append_left _ he

/-- Across one cycle attempt, a template whose `nextOccurrence` changed was a
due template whose ledger write succeeded, so its materialized entry — dated
with the pre-advance `nextOccurrence` and owned by the template's user — is in
the ledger afterwards.  Only a completed attempt changes any template. -/
theorem cycleOp_advanced_entry (s s' : SysState)
    (hnd : (s.templates.map (fun t => t.id)).Nodup) (h : CycleOp s s') :
    ∀ u ∈ s.templates, ∀ u' ∈ s'.templates, u'.id = u.id →
      u'.nextOccurrence ≠ u.nextOccurrence →
      ∃ e ∈ s'.entries, e.userId = u.userId ∧ e.date = u.nextOccurrence := by
  cases h with
  | complete ledgerOk now =>
    intro u hu u' hu' hid hne
    dsimp only at hu' ⊢
    unfold cycleAdvance at hu'
    rcases List.mem_map.mp hu' with ⟨v, hv, hfv⟩
    by_cases hc : (dueFilter now v && ledgerOk v) = true
    · rw [if_pos hc] at hfv
      have hvid : v.id = u.id := by rw [← hid, ← hfv, advanceTemplate_id]
      have hvu : v = u := id_inj_of_nodup _ hnd v hv u hu hvid
      have hc2 : dueFilter now v = true ∧ ledgerOk v = true := by
        simpa using hc
      refine ⟨materializeEntry v, ?_, ?_, ?_⟩
      · apply List.mem_append_right
        unfold cycleWritten getTransactionsToProcess
        exact List.mem_map_of_mem _ (List.mem_filter.mpr
          ⟨List.mem_filter.mpr ⟨hv, hc2.1⟩, hc2.2⟩)
      · rw [hvu]
        rfl
      · rw [materializeEntry_date, hvu]
    · rw [if_neg hc] at hfv
      exfalso
      have hvu : v = u := id_inj_of_nodup _ hnd v hv u hu (by rw [hfv, hid])
      exact hne (by rw [← hfv, hvu])
  | interrupted ledgerOk now k =>
    intro u hu u' hu' hid hne
    dsimp only at hu'
    exact absurd (congrArg RecurringTransaction.nextOccurrence
      (id_inj_of_nodup _ hnd u' hu' u hu hid)) hne

theorem reach_key (s s' : SysState) (h : Relation.ReflTransGen CycleOp s s') :
    s'.templates.map (fun t => (t.id, t.userId)) =
      s.templates.map (fun t => (t.id, t.userId)) := by
  induction h with
  | refl => rfl
  | tail hr hstep ih => rw [cycleOp_key _ _ hstep, ih]

theorem reach_ids (s s' : SysState) (h : Relation.ReflTransGen CycleOp s s') :
    s'.templates.map (fun t => t.id) = s.templates.map (fun t => t.id) := by
  induction h with
  | refl => rfl
  | tail hr hstep ih => rw [cycleOp_ids _ _ hstep, ih]

theorem reach_entries_mono (s s' : SysState) (h : Relation.ReflTransGen CycleOp s s') :
    ∀ e ∈ s.entries, e ∈ s'.entries := by
  induction h with
  | refl => exact fun e he => he
  | tail hr hstep ih => exact fun e he => cycleOp_entries_mono _ _ hstep e (ih e he)

/-- C1 (amended): over any interleaving of completed and interrupted cycle
attempts (`CycleOp`), starting from a store with distinct template ids,
whenever a template's `nextOccurrence` is observed to have changed, a ledger
entry owned by the template's user and dated with the pre-change
`nextOccurrence` exists: an advance is never observable without its
materialized entry, because the ledger write is durable before the
end-of-cycle bulkWrite that commits the advance.  The converse direction of
the original claim fails — see the counterexample. -/
theorem c1_ledger_then_advance (s s' : SysState)
    (hnd : (s.templates.map (fun t => t.id)).Nodup)
    (hreach : Relation.ReflTransGen CycleOp s s') :
    ∀ u ∈ s.templates, ∀ u' ∈ s'.templates, u'.id = u.id →
      u'.nextOccurrence ≠ u.nextOccurrence →
      ∃ e ∈ s'.entries, e.userId = u.userId ∧ e.date = u.nextOccurrence := by
  induction hreach with
  | refl =>
    intro u hu u' hu' hid hne
    exact absurd (congrArg RecurringTransaction.nextOccurrence
      (id_inj_of_nodup _ hnd u' hu' u hu hid)) hne
  | tail hr hstep ih =>
    intro u hu u' hu' hid hne
    rename_i b c
    have hndB : (b.templates.map (fun t => t.id)).Nodup := by
      rw [reach_ids s b hr]
      exact hnd
    obtain ⟨v, hv, hvid, hvuser⟩ :
        ∃ v ∈ b.templates, v.id = u.id ∧ v.userId = u.userId := by
      have hmem : (u.id, u.userId) ∈ b.templates.map (fun t => (t.id, t.userId)) := by
        rw [reach_key s b hr]
        exact List.mem_map_of_mem _ hu
      rcases List.mem_map.mp hmem with ⟨v, hv, hpair⟩
      exact ⟨v, hv, congrArg Prod.fst hpair, congrArg Prod.snd hpair⟩
    by_cases hch : v.nextOccurrence = u.nextOccurrence
    · obtain ⟨e, he, h1, h2⟩ :=
        cycleOp_advanced_entry b c hndB hstep v hv u' hu'
          (by rw [hid, hvid]) (by rw [hch]; exact hne)
      exact ⟨e, he, by rw [h1, hvuser], by rw [h2, hch]⟩
    · obtain ⟨e, he, h1, h2⟩ := ih u hu v hv hvid hch
      exact ⟨e, cycleOp_entries_mono b c hstep e he, h1, h2⟩

/-- A concrete schema-valid daily template used by several witnesses below;
day ordinals are kept small so that kernel evaluation stays cheap. -/
def baseTemplate : RecurringTransaction :=
  { id := 1
    userId := 1
    type := TxType.expense
    amount := 100
    category := "Utilities"
    description := ""
    startDate := ⟨50, 0⟩
    endDate := none
    frequency := Frequency.daily
    dayOfMonth := 1
    dayOfWeek := 1
    month := 0
    isActive := true
    lastProcessed := none
    nextOccurrence := ⟨100, 0⟩ }

/-- C1 data: the per-template ledger success oracle that always succeeds, and
the states traversed by an interrupted attempt followed by a completed one on
one due daily template. -/
def opOk : RecurringTransaction → Bool := fun _ => true

def sX0 : SysState := ⟨[baseTemplate], []⟩

def sX1 : SysState := ⟨[baseTemplate], [materializeEntry baseTemplate]⟩

def sX2 : SysState :=
  ⟨[advanceTemplate baseTemplate ⟨100, 0⟩],
    [materializeEntry baseTemplate, materializeEntry baseTemplate]⟩

/-- C1 counterexample: materialize and advance are not one atomic unit.  The
ledger write runs outside the batch session and is durable at once, while the
template advance only happens in the end-of-cycle bulkWrite; an attempt
interrupted between the two (`CycleOp.interrupted`) leaves the entry written
with the template unadvanced, and the next completed cycle selects the same
template again and writes the same due occurrence a second time: the ledger
ends up holding two identical entries for one due occurrence of one template,
refuting the claimed crash-safety of a per-template atomic unit. -/
theorem c1_counterexample :
    CycleOp sX0 sX1 ∧ CycleOp sX1 sX2 ∧
    sX2.entries.count (materializeEntry baseTemplate) = 2 ∧
    (materializeEntry baseTemplate).date = baseTemplate.nextOccurrence := by
  refine ⟨?_, ?_, by decide, rfl⟩
  · have h := CycleOp.interrupted sX0 opOk ⟨100, 0⟩ 1
    have he : (⟨sX0.templates,
        sX0.entries ++ (cycleWritten sX0.templates opOk ⟨100, 0⟩).take 1⟩ : SysState)
        = sX1 := by decide
    rwa [he] at h
  · have h := CycleOp.complete sX1 opOk ⟨100, 0⟩
    have he : (⟨cycleAdvance sX1.templates opOk ⟨100, 0⟩,
        sX1.entries ++ cycleWritten sX1.templates opOk ⟨100, 0⟩⟩ : SysState)
        = sX2 := by decide
    rwa [he] at h

/-- C1 witness data: one completed cycle on the same template. -/
def sW1 : SysState := ⟨[baseTemplate], []⟩

def sW1fin : SysState :=
  ⟨[advanceTemplate baseTemplate ⟨100, 0⟩], [materializeEntry baseTemplate]⟩

/-- C1 witness: the amended theorem applied to one completed cycle on a
concrete due template; the advanced template's pre-advance due date appears in
the ledger. -/
theorem c1_ledger_then_advance_witness :
    (sW1.templates.map (fun t => t.id)).Nodup ∧
    baseTemplate ∈ sW1.templates ∧
    advanceTemplate baseTemplate ⟨100, 0⟩ ∈ sW1fin.templates ∧
    (advanceTemplate baseTemplate ⟨100, 0⟩).id = baseTemplate.id ∧
    (advanceTemplate baseTemplate ⟨100, 0⟩).nextOccurrence ≠ baseTemplate.nextOccurrence ∧
    ∃ e ∈ sW1fin.entries, e.userId = baseTemplate.userId ∧
      e.date = baseTemplate.nextOccurrence := by
  refine ⟨by decide, by decide, by decide, by decide, by decide, ?_⟩
  have hstep : CycleOp sW1 sW1fin := by
    have h := CycleOp.complete sW1 opOk ⟨100, 0⟩
    have he : (⟨cycleAdvance sW1.templates opOk ⟨100, 0⟩,
        sW1.entries ++ cycleWritten sW1.templates opOk ⟨100, 0⟩⟩ : SysState)
        = sW1fin := by decide
    rwa [he] at h
  exact c1_ledger_then_advance sW1 sW1fin (by decide)
    (Relation.ReflTransGen.single hstep) baseTemplate (by decide)
    (advanceTemplate baseTemplate ⟨100, 0⟩) (by decide) (by decide) (by decide)

/-- C2 failing input: a monthly template with `dayOfMonth = 31` whose
`nextOccurrence` is January 31, 2023. -/
def tC2 : RecurringTransaction :=
  { baseTemplate with
    frequency := Frequency.monthly
    dayOfMonth := 31
    startDate := ⟨JsDate.mkOrd 2023 0 1, 0⟩
    nextOccurrence := ⟨JsDate.mkOrd 2023 0 31, 0⟩ }

def nowC2 : DT := ⟨JsDate.mkOrd 2023 1 15, 0⟩

/-- C2: the claim fails on the code.  For the monthly template with
`dayOfMonth = 31` and reference date January 31, 2023, `calculateNextOccurrence`
returns March 31, 2023 — not the February 28 promised by the claim and by the
comment in the source — because `setMonth` first overflows January 31 into
March 3 and the day is then clamped within March.  The theorem evaluates the
embedded method at that input. -/
theorem c2_monthly_overflow_code_bug :
    calculateNextOccurrence tC2 nowC2 = some ⟨JsDate.mkOrd 2023 2 31, 0⟩ ∧
    JsDate.fromOrd (JsDate.mkOrd 2023 2 31) = ⟨2023, 2, 31⟩ ∧
    (JsDate.mkOrd 2023 2 31 : Nat) ≠ JsDate.mkOrd 2023 1 28 := by
  decide

/-- C5 counterexample data: an active template that is due (`nextOccurrence ≤
now`) but whose `endDate` lies before now. -/
def tC5 : RecurringTransaction :=
  { baseTemplate with endDate := some ⟨150, 0⟩ }

def nowC5 : DT := ⟨200, 0⟩

/-- C5 counterexample: the selection claimed by the spec (only `isActive` and
`nextOccurrence ≤ now`) would return this template, but the source query also
filters on `endDate` and returns nothing. -/
theorem c5_counterexample :
    tC5.isActive = true ∧ tC5.nextOccurrence.le nowC5 ∧
    getTransactionsToProcess [tC5] nowC5 = [] := by
  decide

/-- C5 (amended): the selection returns exactly the templates with `isActive =
true`, `nextOccurrence ≤ now`, and `endDate` absent or at least now — the
source query does apply end-date filtering at selection time. -/
theorem c5_selection_characterization :
    ∀ (store : List RecurringTransaction) (now : DT) (t : RecurringTransaction),
      t ∈ getTransactionsToProcess store now ↔
        t ∈ store ∧ t.isActive = true ∧ t.nextOccurrence.le now ∧
          (t.endDate = none ∨ ∃ e, t.endDate = some e ∧ now.le e) := by
  intro store now t
  unfold getTransactionsToProcess dueFilter
  rw [List.mem_filter]
  rcases hE : t.endDate with _ | e <;>
    simp [hE, Bool.and_eq_true, decide_eq_true_eq, and_assoc]

/-- C6 counterexample data: a daily template whose candidate next occurrence
equals its `endDate` exactly. -/
def tC6 : RecurringTransaction :=
  { baseTemplate with nextOccurrence := ⟨100, 5⟩, endDate := some ⟨101, 5⟩ }

def nowC6 : DT := ⟨100, 6⟩

/-- C6 counterexample: the candidate equals `endDate` and is returned — the
source compares with strict greater-than, so an occurrence exactly at `endDate`
is produced, refuting the claim that the calculator returns None whenever the
candidate is greater than or equal to `endDate`. -/
theorem c6_counterexample :
    tC6.endDate = some ⟨101, 5⟩ ∧
    calculateNextOccurrence tC6 nowC6 = some ⟨101, 5⟩ := by
  decide

/-- C6 (amended): for an active template with an `endDate`, the calculator
returns None exactly when the computed candidate is strictly after `endDate`;
a candidate on `endDate` itself is returned. -/
theorem c6_endDate_strict (t : RecurringTransaction) (now e : DT)
    (ha : t.isActive = true) (he : t.endDate = some e) :
    (calculateNextOccurrence t now = none ↔ e.lt (rawNext t t.nextOccurrence)) ∧
    (¬ e.lt (rawNext t t.nextOccurrence) →
      calculateNextOccurrence t now = some (rawNext t t.nextOccurrence)) := by
  unfold calculateNextOccurrence
  rw [if_neg (by simp [ha]), baseDate_eq, he]
  dsimp only
  by_cases hlt : e.lt (rawNext t t.nextOccurrence)
  · rw [if_pos hlt]
    exact ⟨⟨fun _ => hlt, fun _ => rfl⟩, fun h => absurd hlt h⟩
  · rw [if_neg hlt]
    exact ⟨⟨fun h => absurd h (by simp), fun h => absurd h hlt⟩, fun _ => rfl⟩

/-- C6 witness: the amended characterization applied to a concrete active
template with an end date. -/
theorem c6_endDate_strict_witness :
    tC6.isActive = true ∧ tC6.endDate = some ⟨101, 5⟩ ∧
    ((calculateNextOccurrence tC6 nowC6 = none ↔
        JsDate.DT.lt ⟨101, 5⟩ (rawNext tC6 tC6.nextOccurrence)) ∧
      (¬ JsDate.DT.lt ⟨101, 5⟩ (rawNext tC6 tC6.nextOccurrence) →
        calculateNextOccurrence tC6 nowC6 = some (rawNext tC6 tC6.nextOccurrence))) :=
  ⟨by decide, by decide, c6_endDate_strict tC6 nowC6 ⟨101, 5⟩ (by decide) (by decide)⟩

/-- C3 counterexample data: due templates differing only in their id. -/
def tF2 : RecurringTransaction := { baseTemplate with id := 2 }

def tF3 : RecurringTransaction := { baseTemplate with id := 3 }

def tF99 : RecurringTransaction := { baseTemplate with id := 99 }

/-- C3 counterexample: the cycle result names no failed template.  Two runs
whose only difference is the id of the template whose ledger write fails
return identical results — a bare `⟨success, processed, timestamp⟩` carrying
no per-template (templateId, error) list — refuting the claimed result
shape. -/
theorem c3_counterexample :
    (processRecurringTransactions [baseTemplate, tF2]
        (fun t => !decide (t.id = 2)) ⟨100, 0⟩).1 =
      (processRecurringTransactions [baseTemplate, tF99]
        (fun t => !decide (t.id = 99)) ⟨100, 0⟩).1 ∧
    (processRecurringTransactions [baseTemplate, tF2]
        (fun t => !decide (t.id = 2)) ⟨100, 0⟩).1 = ⟨true, 1, ⟨100, 0⟩⟩ := by
  decide

/-- C3 (amended): the processing cycle returns normally whenever the store
fetch succeeds and the end-of-cycle bulkWrite commits, and its result is
`⟨true, processed, now⟩` — `processed` counting the selected templates whose
ledger write succeeded — together with the advanced store and the written
entries; a per-template ledger failure never escapes and leaves no trace in
the result.  A failing fetch propagates the store's error, and a failing
bulkWrite escapes as an exception. -/
theorem c3_cycle_result_contract :
    ∀ (store : List RecurringTransaction) (ledgerOk : RecurringTransaction → Bool) (now : DT),
      processCycle (Except.ok store) ledgerOk true now =
        Except.ok (⟨true, ((getTransactionsToProcess store now).filter ledgerOk).length, now⟩,
          cycleAdvance store ledgerOk now, cycleWritten store ledgerOk now) ∧
      (∀ msg, processCycle (Except.error msg) ledgerOk true now = Except.error msg) ∧
      processCycle (Except.ok store) ledgerOk false now = Except.error "bulkWrite failed" := by
  intro store ledgerOk now
  exact ⟨rfl, fun msg => rfl, rfl⟩

/-- C4 counterexample: a materialized entry carries no recurrence
back-references.  The batch loop's request body holds only type, amount,
category, description and date, and `createTransaction` reads nothing more, so
the stored entry keeps the Transaction schema defaults `isFromRecurring =
false` and `recurringTransactionId = null` — refuting the claimed
`isFromRecurring = true` and template-id back-reference. -/
theorem c4_counterexample :
    materializeEntry baseTemplate ∈
      (processRecurringTransactions [baseTemplate] (fun _ => true) ⟨100, 0⟩).2.2 ∧
    (materializeEntry baseTemplate).isFromRecurring = false ∧
    (materializeEntry baseTemplate).recurringTransactionId = none := by
  decide

/-- C4 (amended): every template selected in a cycle whose ledger write
succeeds has its materialized entry among the cycle's written entries, and
that entry is dated `nextOccurrence`, copies the template's type, amount and
category, defaults the description to "Recurring: " followed by the category
when the template's description is empty — but carries no back-references:
`isFromRecurring` is false and `recurringTransactionId` is none. -/
theorem c4_materialized_entry_fields
    (store : List RecurringTransaction) (ledgerOk : RecurringTransaction → Bool)
    (now : DT) (t : RecurringTransaction)
    (hdue : t ∈ getTransactionsToProcess store now) (hok : ledgerOk t = true) :
    materializeEntry t ∈ (processRecurringTransactions store ledgerOk now).2.2 ∧
    (materializeEntry t).date = t.nextOccurrence ∧
    (materializeEntry t).type = t.type ∧
    (materializeEntry t).amount = t.amount ∧
    (materializeEntry t).category = t.category ∧
    (materializeEntry t).description =
      (if t.description = "" then "Recurring: " ++ t.category else t.description) ∧
    (materializeEntry t).isFromRecurring = false ∧
    (materializeEntry t).recurringTransactionId = none := by
  refine ⟨?_, rfl, rfl, rfl, rfl, rfl, rfl, rfl⟩
  unfold processRecurringTransactions cycleWritten
  dsimp only
  exact List.mem_map_of_mem _ (List.mem_filter.mpr ⟨hdue, hok⟩)

/-- C4 witness: the field contract applied to a concrete selected template
whose ledger write succeeds. -/
theorem c4_materialized_entry_fields_witness :
    baseTemplate ∈ getTransactionsToProcess [baseTemplate] ⟨100, 0⟩ ∧
    (materializeEntry baseTemplate ∈
        (processRecurringTransactions [baseTemplate] (fun _ => true) ⟨100, 0⟩).2.2 ∧
      (materializeEntry baseTemplate).date = baseTemplate.nextOccurrence ∧
      (materializeEntry baseTemplate).type = baseTemplate.type ∧
      (materializeEntry baseTemplate).amount = baseTemplate.amount ∧
      (materializeEntry baseTemplate).category = baseTemplate.category ∧
      (materializeEntry baseTemplate).description =
        (if baseTemplate.description = "" then "Recurring: " ++ baseTemplate.category
         else baseTemplate.description) ∧
      (materializeEntry baseTemplate).isFromRecurring = false ∧
      (materializeEntry baseTemplate).recurringTransactionId = none) :=
  ⟨by decide,
    c4_materialized_entry_fields [baseTemplate] (fun _ => true) ⟨100, 0⟩ baseTemplate
      (by decide) (by decide)⟩

/-- C7 counterexample: a per-template ledger failure leaves no trace in the
cycle result.  With three due templates and the write failing for the second,
the result is the bare `⟨true, 2, now⟩` and equals the result of the run where
instead the third template's write fails — refuting the claimed error entry
referencing the failed template's id. -/
theorem c7_counterexample :
    (processRecurringTransactions [baseTemplate, tF2, tF3]
        (fun t => !decide (t.id = 2)) ⟨100, 0⟩).1 =
      (processRecurringTransactions [baseTemplate, tF2, tF3]
        (fun t => !decide (t.id = 3)) ⟨100, 0⟩).1 ∧
    (processRecurringTransactions [baseTemplate, tF2, tF3]
        (fun t => !decide (t.id = 2)) ⟨100, 0⟩).1 = ⟨true, 2, ⟨100, 0⟩⟩ := by
  decide

/-- C7 (amended): in a batch of three due templates where the ledger write
fails exactly for the second, the cycle still materializes and advances the
first and third, leaves the second template completely unchanged (so it
remains selectable on the next cycle), and returns `⟨true, 2, now⟩`: the
failure is caught and only logged, and the result carries no per-template
error information. -/
theorem c7_partial_failure_isolation
    (t1 t2 t3 : RecurringTransaction) (ledgerOk : RecurringTransaction → Bool) (now : DT)
    (h1 : dueFilter now t1 = true) (h2 : dueFilter now t2 = true)
    (h3 : dueFilter now t3 = true)
    (hl1 : ledgerOk t1 = true) (hl2 : ledgerOk t2 = false) (hl3 : ledgerOk t3 = true) :
    processRecurringTransactions [t1, t2, t3] ledgerOk now =
      (⟨true, 2, now⟩,
       [advanceTemplate t1 now, t2, advanceTemplate t3 now],
       [materializeEntry t1, materializeEntry t3]) := by
  unfold processRecurringTransactions cycleAdvance cycleWritten getTransactionsToProcess
  simp [List.filter_cons, h1, h2, h3, hl1, hl2, hl3]

/-- C7 witness: three concrete due templates with the ledger failing only on
the second. -/
theorem c7_partial_failure_isolation_witness :
    dueFilter ⟨100, 0⟩ baseTemplate = true ∧
    dueFilter ⟨100, 0⟩ tF2 = true ∧
    dueFilter ⟨100, 0⟩ tF3 = true ∧
    processRecurringTransactions [baseTemplate, tF2, tF3]
        (fun t => !decide (t.id = 2)) ⟨100, 0⟩ =
      (⟨true, 2, ⟨100, 0⟩⟩,
       [advanceTemplate baseTemplate ⟨100, 0⟩, tF2, advanceTemplate tF3 ⟨100, 0⟩],
       [materializeEntry baseTemplate, materializeEntry tF3]) :=
  ⟨by decide, by decide, by decide,
    c7_partial_failure_isolation baseTemplate tF2 tF3
      (fun t => !decide (t.id = 2)) ⟨100, 0⟩
      (by decide) (by decide) (by decide) (by decide) (by decide) (by decide)⟩

/-- The next occurrence obtained from a template's cadence parameters alone, as
the pre-save hook computes it: `startDate` itself when it still lies in the
future, otherwise one calculator advance from `startDate`.  The stored
`nextOccurrence` plays no role (the hook overwrites it with `startDate` before
calling the calculator). -/
def recomputeFromParams (u : RecurringTransaction) (now : DT) : Option DT :=
  if u.startDate.lt now then
    calculateNextOccurrence { u with nextOccurrence := u.startDate } now
  else some u.startDate

theorem rawNext_isActive_irrel (t : RecurringTransaction) (b : Bool) (base : DT) :
    rawNext { t with isActive := b } base = rawNext t base := by
  cases t
  rfl

deriving instance DecidableEq for Except

theorem calc_none_intro (t : RecurringTransaction) (now : DT) (e : DT)
    (he : t.endDate = some e) (hlt : e.lt (rawNext t t.nextOccurrence)) :
    calculateNextOccurrence t now = none := by
  unfold calculateNextOccurrence
  by_cases ha : t.isActive = false
  · rw [if_pos ha]
  · rw [if_neg ha]
    rw [he]
    dsimp only
    rw [baseDate_eq, if_pos hlt]

/-- C8 input: a cadence-changing update (frequency daily → weekly with
`dayOfWeek = 3`) applied to the stored base template. -/
def origC8 : RecurringTransaction := baseTemplate

def updC8 : RecurringTransaction :=
  { baseTemplate with frequency := Frequency.weekly, dayOfWeek := 3 }

/-- C8: the claim fails on the code — a code bug.  The update route uses
`findOneAndUpdate`, which never runs the model's `pre('save')` hook, so even a
cadence-changing update returns the document with the stale `nextOccurrence`
of the old cadence unchanged (day 100), while the hook's recomputation from
the new parameters — proven elsewhere independent of the stored
`nextOccurrence` — would give day 52, the first weekday-3 date after the start
date.  No recomputation of `nextOccurrence` happens on update. -/
theorem c8_update_no_recompute :
    cadenceChanged origC8 updC8 = true ∧
    updateRecurringTransaction origC8 updC8 =
      { updC8 with nextOccurrence := ⟨100, 0⟩, lastProcessed := none } ∧
    recomputeFromParams updC8 ⟨100, 0⟩ = some ⟨52, 0⟩ ∧
    (⟨52, 0⟩ : DT) ≠ ⟨100, 0⟩ := by
  decide

/-- C9 counterexample data: an inactive daily template whose `endDate` passed
long ago but whose stale `nextOccurrence` lies two days before `endDate`, so a
single calculator advance still lands before `endDate`. -/
def tC9x : RecurringTransaction :=
  { baseTemplate with
    isActive := false
    startDate := ⟨99998, 0⟩
    nextOccurrence := ⟨100000, 0⟩
    endDate := some ⟨100002, 0⟩ }

def nowC9x : DT := ⟨100100, 0⟩

def tC9y : RecurringTransaction :=
  { tC9x with isActive := true, nextOccurrence := ⟨100001, 0⟩ }

/-- C9 counterexample: toggling this dead template (its `endDate` lies before
now) back on succeeds and returns an active template, refuting the claim that
such a reactivation is always rejected: the recomputation from the stale
`nextOccurrence` advances one day, which is still on or before `endDate`, so
the toggle accepts. -/
theorem c9_counterexample :
    tC9x.isActive = false ∧ tC9x.endDate = some ⟨100002, 0⟩ ∧
    JsDate.DT.lt ⟨100002, 0⟩ nowC9x ∧
    toggleActiveStatus tC9x nowC9x = Except.ok tC9y ∧ tC9y.isActive = true := by
  decide

/-- C9 (amended): reactivating an inactive template with a stale
`nextOccurrence` is rejected exactly when the single calculator advance from
that stale value yields no date; in particular the toggle is rejected whenever
the advance lands strictly after `endDate` (which covers every template the
batch processor itself deactivated), but a dead template whose stale
`nextOccurrence` advances to a date on or before `endDate` is reactivated. -/
theorem c9_toggle_characterization (t : RecurringTransaction) (now : DT)
    (hin : t.isActive = false) (hstale : t.nextOccurrence.lt now) :
    (toggleActiveStatus t now = Except.error "no valid future occurrence" ↔
      calculateNextOccurrence { t with isActive := true } now = none) ∧
    (∀ e, t.endDate = some e → e.lt (rawNext t t.nextOccurrence) →
      toggleActiveStatus t now = Except.error "no valid future occurrence") := by
  have hT : toggleActiveStatus t now =
      (match calculateNextOccurrence { t with isActive := true } now with
       | some d => Except.ok { t with isActive := true, nextOccurrence := d }
       | none => Except.error "no valid future occurrence") := by
    unfold toggleActiveStatus
    rw [if_neg (by simp [hin]), if_pos hstale]
  constructor
  · rw [hT]
    cases hcalc : calculateNextOccurrence { t with isActive := true } now <;> simp [hcalc]
  · intro e he hlt
    rw [hT]
    have hnone : calculateNextOccurrence { t with isActive := true } now = none := by
      apply calc_none_intro _ _ e
      · exact he
      · rw [rawNext_isActive_irrel]
        exact hlt
    rw [hnone]

/-- C9 witness: the characterization applied to a concrete inactive template
whose advance from the stale `nextOccurrence` falls after `endDate`, so the
toggle is rejected. -/
def tC9w : RecurringTransaction :=
  { baseTemplate with
    isActive := false
    startDate := ⟨99998, 0⟩
    nextOccurrence := ⟨100001, 0⟩
    endDate := some ⟨100002, 0⟩ }

theorem c9_toggle_characterization_witness :
    tC9w.isActive = false ∧ JsDate.DT.lt tC9w.nextOccurrence ⟨100100, 0⟩ ∧
    ((toggleActiveStatus tC9w ⟨100100, 0⟩ = Except.error "no valid future occurrence" ↔
        calculateNextOccurrence { tC9w with isActive := true } ⟨100100, 0⟩ = none) ∧
      (∀ e, tC9w.endDate = some e → e.lt (rawNext tC9w tC9w.nextOccurrence) →
        toggleActiveStatus tC9w ⟨100100, 0⟩ =
          Except.error "no valid future occurrence")) :=
  ⟨by decide, by decide,
    c9_toggle_characterization tC9w ⟨100100, 0⟩ (by decide) (by decide)⟩

/-- C10: when the calculator yields no next occurrence for a processed
template, the advance step writes `isActive = false` while keeping
`nextOccurrence` at its previous value (the just-materialized due date) and
recording `lastProcessed`; since the field is required by the schema — and
non-optional in this embedding — `nextOccurrence` always remains a set
timestamp, also on deactivated templates. -/
theorem c10_deactivation_keeps_nextOccurrence (t : RecurringTransaction) (now : DT)
    (h : calculateNextOccurrence t now = none) :
    (advanceTemplate t now).isActive = false ∧
    (advanceTemplate t now).nextOccurrence = t.nextOccurrence ∧
    (advanceTemplate t now).lastProcessed = some now := by
  rw [advanceTemplate_eq_none t now h]
  exact ⟨rfl, rfl, rfl⟩

/-- C10 witness: a concrete active template whose candidate falls after its
`endDate`, so the calculator yields none and the advance step deactivates while
keeping `nextOccurrence`. -/
def tC10 : RecurringTransaction :=
  { baseTemplate with endDate := some ⟨100, 500⟩ }

theorem c10_deactivation_witness :
    calculateNextOccurrence tC10 ⟨100, 0⟩ = none ∧
    ((advanceTemplate tC10 ⟨100, 0⟩).isActive = false ∧
      (advanceTemplate tC10 ⟨100, 0⟩).nextOccurrence = tC10.nextOccurrence ∧
      (advanceTemplate tC10 ⟨100, 0⟩).lastProcessed = some ⟨100, 0⟩) :=
  ⟨by decide, c10_deactivation_keeps_nextOccurrence tC10 ⟨100, 0⟩ (by decide)⟩
